import Mathlib

set_option autoImplicit false

/-!
Verification development for the lock-free bounded MPMC queue repository.

The C++ sources are embedded shallowly as pure Lean functions over explicit
state records.  All operations are modelled in their sequential (single
thread at a time) semantics: every atomic load observes the current state,
every fetch-add or CAS-retry loop succeeds on its first iteration because no
other thread interferes between the load and the update.  Cursors are
modelled as unbounded natural numbers counting total claims since
construction; the sources use 64-bit (respectively 32-bit) machine counters,
whose wraparound can only occur after 2^64 (respectively 2^32) operations
and is explicitly declared out of scope by the design (cursor wraparound and
the ABA hazard are flagged as inherited, unsolved limitations).  Arithmetic
on the stored mask and capacity values, where machine overflow genuinely
changes results at construction time, is modelled with explicit mod 2^64
(respectively mod 2^32) reductions.
-/

/--
Status enum from src/MPMCQueue.h.  The first queue class in that file
declares all eight values; the second class declares the first four.  The
fourth value is named BUFFER NOT + the allocated-flag word in the source;
it is shortened here to a form the toolchain accepts.
-/
inductive EMPMCQueueErrorStatus : Type
  | TRANSACTION_SUCCESS
  | BUFFER_FULL
  | BUFFER_EMPTY
  | BUFFER_NOT_INIT
  | COPY_FAILED
  | COPY_SUCCESS
  | BUFFER_COPY_FAILED
  | BUFFER_COPY_SUCCESS
  deriving DecidableEq

/-- One round of the bit-smearing round-up: x OR (x shifted right by w). -/
def smear_step (x w : Nat) : Nat :=
  x ||| (x >>> w)

/--
The 32-bit bit-smear used by the capacity round-up: shifts by 1, 2, 4, 8, 16.
After these five steps every bit below the most significant set bit is set.
-/
def smear32 (n : Nat) : Nat :=
  smear_step (smear_step (smear_step (smear_step (smear_step n 1) 2) 4) 8) 16

/--
The 64-bit bit-smear: the five 32-bit steps followed by a shift by 32, as in
the constructor of the first queue class in src/MPMCQueue.h.
-/
def smear64 (n : Nat) : Nat :=
  smear_step (smear32 n) 32

namespace TSequentialContainer

/--
Model of TSequentialContainer CompareAndSet (src/MPMCQueue.h lines 96 to
100), which forwards to std atomic compare exchange: on success the new
value is stored; on failure the stored value is unchanged and the Expected
reference argument is overwritten with the observed stored value.  The
result triple is (return value, stored data afterwards, Expected variable
of the caller afterwards).  Spurious failure of the weak exchange is a
concurrency artefact with no sequential counterpart, so the sequential
model succeeds exactly when the values compare equal.
-/
def CompareAndSet (Data Expected NewValue : Nat) : Bool × Nat × Nat :=
  if Data = Expected then
    (true, NewValue, Expected)
  else
    (false, Data, Data)

end TSequentialContainer

namespace MPMC

/-- Wraparound modulus of the 64-bit unsigned arithmetic in the constructor. -/
def U64 : Nat := 2 ^ 64

/--
State of TMPMCQueue (first class of src/MPMCQueue.h): the stored index mask,
the ring buffer contents by physical slot, and the two cursors.  Cursors
count claims, see the header comment of this file.
-/
structure State (T : Type) where
  IndexMask : Nat
  RingBuffer : List T
  ConsumerCursor : Nat
  ProducerCursor : Nat
  deriving DecidableEq

/--
NearestPower computed by the constructor (src/MPMCQueue.h lines 223 to 233):
decrement, smear with shifts 1,2,4,8,16,32, increment.  The increment is
64-bit arithmetic and can wrap to zero, hence the mod.  The argument is the
template queue size, assumed positive (size zero returns early in the
source) and below 2^64.
-/
def NearestPower (TQueueSize : Nat) : Nat :=
  (smear64 (TQueueSize - 1) + 1) % U64

/--
Freshly constructed queue (src/MPMCQueue.h lines 212 to 246): IndexMask is
NearestPower minus one in 64-bit arithmetic, the ring buffer holds
NearestPower zero-initial slots (z is the zero value of the element type),
both cursors start at 0.
-/
def mkQueue (T : Type) (z : T) (TQueueSize : Nat) : State T :=
  { IndexMask := (NearestPower TQueueSize + (U64 - 1)) % U64
    RingBuffer := List.replicate (NearestPower TQueueSize) z
    ConsumerCursor := 0
    ProducerCursor := 0 }

/--
Enqueue (src/MPMCQueue.h lines 267 to 286).  Loads both cursors, returns
BUFFER_FULL when the producer cursor plus one equals the consumer cursor,
otherwise claims the producer cursor by fetch-add (the old value is the
claimed index), masks it, and writes the new element into that slot.
-/
def Enqueue {T : Type} (s : State T) (NewElement : T) : EMPMCQueueErrorStatus × State T :=
  let CurrentConsumerCursor := s.ConsumerCursor
  let CurrentProducerCursor := s.ProducerCursor
  if CurrentProducerCursor + 1 = CurrentConsumerCursor then
    (EMPMCQueueErrorStatus.BUFFER_FULL, s)
  else
    let ClaimedIndex := s.ProducerCursor
    let ClaimedIndexMask := ClaimedIndex &&& s.IndexMask
    (EMPMCQueueErrorStatus.TRANSACTION_SUCCESS,
      { s with
        ProducerCursor := ClaimedIndex + 1
        RingBuffer := s.RingBuffer.set ClaimedIndexMask NewElement })

/--
Dequeue (src/MPMCQueue.h lines 327 to 348).  Returns BUFFER_EMPTY when the
cursors are equal, otherwise claims the consumer cursor by fetch-add, masks
it, and copies that slot into the output reference.  The third component is
the value written to the output parameter of the caller, none when it is
left untouched.
-/
def Dequeue {T : Type} [Inhabited T] (s : State T) :
    EMPMCQueueErrorStatus × State T × Option T :=
  if s.ConsumerCursor = s.ProducerCursor then
    (EMPMCQueueErrorStatus.BUFFER_EMPTY, s, none)
  else
    let ClaimedIndex := s.ConsumerCursor
    let ClaimedIndexMask := ClaimedIndex &&& s.IndexMask
    (EMPMCQueueErrorStatus.TRANSACTION_SUCCESS,
      ({ s with ConsumerCursor := ClaimedIndex + 1 },
        some (s.RingBuffer.getD ClaimedIndexMask default)))

/-- One queue operation: an enqueue of a value, or a dequeue. -/
inductive Op (T : Type) where
  | enq (v : T)
  | deq

/-- State after one operation (return values discarded). -/
def step {T : Type} [Inhabited T] (s : State T) : Op T → State T
  | Op.enq v => (Enqueue s v).2
  | Op.deq => (Dequeue s).2.1

/-- State after a sequence of operations. -/
def run {T : Type} [Inhabited T] (s : State T) (ops : List (Op T)) : State T :=
  ops.foldl step s

end MPMC

namespace MPMC2

/--
State of the second TMPMCQueue class in src/MPMCQueue.h (after line 419).
Its ring buffer pointer may be null, modelled as an Option; a none buffer
is the degenerate state left by a failed allocation.
-/
structure State (T : Type) where
  IndexMask : Nat
  RingBuffer : Option (List T)
  ConsumerCursor : Nat
  ProducerCursor : Nat
  deriving DecidableEq

/-- CalculateIndex (src/MPMCQueue.h lines 838 to 841): mask the cursor value. -/
def CalculateIndex {T : Type} (s : State T) (IndexValue : Nat) : Nat :=
  IndexValue &&& s.IndexMask

/--
Constructor of the second class (src/MPMCQueue.h lines 735 to 743): the mask
is the template size minus one (no rounding in this variant) and the buffer
holds TQueueSize zeroed slots.
-/
def mkQueue (T : Type) (z : T) (TQueueSize : Nat) : State T :=
  { IndexMask := TQueueSize - 1
    RingBuffer := some (List.replicate TQueueSize z)
    ConsumerCursor := 0
    ProducerCursor := 0 }

/--
Enqueue of the second class (src/MPMCQueue.h lines 765 to 787).  The full
check and the fetch-add come first; only then is the buffer pointer tested,
so the producer cursor advances even on the BUFFER_NOT_INIT return.
-/
def Enqueue {T : Type} (s : State T) (NewElement : T) : EMPMCQueueErrorStatus × State T :=
  if s.ProducerCursor + 1 = s.ConsumerCursor then
    (EMPMCQueueErrorStatus.BUFFER_FULL, s)
  else
    let ClaimedIndex := s.ProducerCursor
    let s1 : State T := { s with ProducerCursor := ClaimedIndex + 1 }
    match s.RingBuffer with
    | none => (EMPMCQueueErrorStatus.BUFFER_NOT_INIT, s1)
    | some buf =>
        (EMPMCQueueErrorStatus.TRANSACTION_SUCCESS,
          { s1 with RingBuffer := some (buf.set (CalculateIndex s ClaimedIndex) NewElement) })

/--
Dequeue of the second class (src/MPMCQueue.h lines 801 to 822).  The empty
check precedes both the claim and the buffer pointer test.
-/
def Dequeue {T : Type} [Inhabited T] (s : State T) :
    EMPMCQueueErrorStatus × State T × Option T :=
  if s.ConsumerCursor = s.ProducerCursor then
    (EMPMCQueueErrorStatus.BUFFER_EMPTY, s, none)
  else
    let ClaimedIndex := s.ConsumerCursor
    let s1 : State T := { s with ConsumerCursor := ClaimedIndex + 1 }
    match s.RingBuffer with
    | none => (EMPMCQueueErrorStatus.BUFFER_NOT_INIT, s1, none)
    | some buf =>
        (EMPMCQueueErrorStatus.TRANSACTION_SUCCESS,
          (s1, some (buf.getD (CalculateIndex s ClaimedIndex) default)))

end MPMC2

namespace lockless

/-- Wraparound modulus of the 32-bit unsigned arithmetic of this variant. -/
def U32 : Nat := 2 ^ 32

/--
The ceil helper of lockless_mpmc_queue (src/LocklessMPMCQueue.h lines 151 to
169): decrement then smear with shifts 1,2,4,8,16, without the final
increment, yielding the mask directly.  QUEUE_SIZE zero returns zero (the
source also rejects it by static assertion).
-/
def ceil_to_nearest_power_of_two_minus_one (QUEUE_SIZE : Nat) : Nat :=
  if QUEUE_SIZE = 0 then 0 else smear32 (QUEUE_SIZE - 1)

/--
Number of slots allocated by the constructor (src/LocklessMPMCQueue.h lines
58 to 59): index_mask plus one in the 32-bit unsigned arithmetic of the
stored mask, which wraps to zero when the mask is 2^32 minus one.
-/
def capacityOf (QUEUE_SIZE : Nat) : Nat :=
  (ceil_to_nearest_power_of_two_minus_one QUEUE_SIZE + 1) % U32

/--
State of lockless_mpmc_queue: the immutable mask, the ring buffer, and the
two cursors (claim counts, see the header comment of this file).
-/
structure State (T : Type) where
  index_mask : Nat
  ring_buffer : List T
  consumer_cursor : Nat
  producer_cursor : Nat
  deriving DecidableEq

/-- Freshly constructed queue: mask from the ceil helper, capacityOf zeroed slots. -/
def mk_queue (T : Type) (z : T) (QUEUE_SIZE : Nat) : State T :=
  { index_mask := ceil_to_nearest_power_of_two_minus_one QUEUE_SIZE
    ring_buffer := List.replicate (capacityOf QUEUE_SIZE) z
    consumer_cursor := 0
    producer_cursor := 0 }

/--
custom_cas (src/LocklessMPMCQueue.h lines 171 to 184).  The expected
argument is passed by value, so the variable of the caller is never
refreshed; on success the desired value is stored.  The result triple is
(return value, atomic variable afterwards, expected variable of the caller
afterwards).
-/
def custom_cas (atomic_var expected desired : Nat) : Bool × Nat × Nat :=
  let current_value := atomic_var
  if current_value = expected then
    (true, desired, expected)
  else
    (false, atomic_var, expected)

/--
push (src/LocklessMPMCQueue.h lines 70 to 98) in its sequential semantics:
the loop body loads both cursors, returns false when the incremented
producer cursor equals the consumer cursor, and otherwise the CAS succeeds
on the first iteration (nothing changed between the load and the CAS), so
the producer cursor advances and the element is written at the old cursor
value masked with index_mask.
-/
def push {T : Type} (s : State T) (new_element : T) : Bool × State T :=
  let current_producer_cursor := s.producer_cursor
  let current_consumer_cursor := s.consumer_cursor
  let new_producer_cursor := current_producer_cursor + 1
  if new_producer_cursor = current_consumer_cursor then
    (false, s)
  else
    (true,
      { s with
        producer_cursor := new_producer_cursor
        ring_buffer :=
          s.ring_buffer.set (current_producer_cursor &&& s.index_mask) new_element })

/--
pop (src/LocklessMPMCQueue.h lines 100 to 128) in its sequential semantics:
returns false when the cursors are equal, otherwise the CAS succeeds first
try, the consumer cursor advances and the slot at the old cursor value
masked with index_mask is copied out (third component, none when the output
reference is untouched).
-/
def pop {T : Type} [Inhabited T] (s : State T) : Bool × State T × Option T :=
  if s.consumer_cursor = s.producer_cursor then
    (false, s, none)
  else
    (true,
      ({ s with consumer_cursor := s.consumer_cursor + 1 },
        some (s.ring_buffer.getD (s.consumer_cursor &&& s.index_mask) default)))

/--
size (src/LocklessMPMCQueue.h lines 130 to 138): producer cursor minus
consumer cursor.  The source subtracts 32-bit unsigned values; with claim
count cursors and the consumer at most the producer this is the truncated
natural subtraction.
-/
def size {T : Type} (s : State T) : Nat :=
  s.producer_cursor - s.consumer_cursor

/-- empty (src/LocklessMPMCQueue.h lines 140 to 143): size equals zero. -/
def empty {T : Type} (s : State T) : Bool :=
  size s == 0

/--
full (src/LocklessMPMCQueue.h lines 145 to 148): size equals index_mask
plus one, the addition taken in the 32-bit arithmetic of the stored mask.
-/
def full {T : Type} (s : State T) : Bool :=
  size s == (s.index_mask + 1) % U32

/-- One queue operation of this variant. -/
inductive Op (T : Type) where
  | push (v : T)
  | pop

/-- State after one operation (return values discarded). -/
def step {T : Type} [Inhabited T] (s : State T) : Op T → State T
  | Op.push v => (push s v).2
  | Op.pop => (pop s).2.1

/-- State after a sequence of operations. -/
def run {T : Type} [Inhabited T] (s : State T) (ops : List (Op T)) : State T :=
  ops.foldl step s

end lockless

/--
Modelled from the spec: the phrase smallest power of two greater than or
equal to requested_size, used to compare the constructed capacity against
the specified rounding contract.
-/
def IsSmallestPow2Geq (c n : Nat) : Prop :=
  (∃ k, c = 2 ^ k) ∧ n ≤ c ∧ ∀ m, (∃ k, m = 2 ^ k) → n ≤ m → c ≤ m

/--
Bit-window predicate used to analyse the smear: y has bit i set exactly
when x has some bit set in the window of width w starting at i.
-/
def bitWindow (x y w : Nat) : Prop :=
  ∀ i, (y.testBit i = true ↔ ∃ o, o < w ∧ x.testBit (i + o) = true)

/-- Every number sees exactly its own bits through a window of width one. -/
theorem bitWindow_one (x : Nat) : bitWindow x x 1 := by
  intro i
  constructor
  · intro hb
    exact ⟨0, Nat.zero_lt_one, by simpa using hb⟩
  · rintro ⟨o, ho, hb⟩
    have ho0 : o = 0 := by omega
    simpa [ho0] using hb

/-- One smear step doubles the width of the bit window. -/
theorem bitWindow_smear_step {x y w : Nat} (h : bitWindow x y w) :
    bitWindow x (smear_step y w) (2 * w) := by
  intro i
  have hlor : (smear_step y w).testBit i = (y.testBit i || y.testBit (w + i)) := by
    simp [smear_step, Nat.testBit_lor, Nat.testBit_shiftRight]
  rw [hlor]
  constructor
  · intro hb
    rcases Bool.or_eq_true_iff.mp hb with hb1 | hb2
    · obtain ⟨o, ho, hbit⟩ := (h i).mp hb1
      exact ⟨o, by omega, hbit⟩
    · obtain ⟨o, ho, hbit⟩ := (h (w + i)).mp hb2
      refine ⟨w + o, by omega, ?_⟩
      have harith : i + (w + o) = w + i + o := by omega
      rw [harith]
      exact hbit
  · rintro ⟨o, ho, hbit⟩
    by_cases how : o < w
    · have : y.testBit i = true := (h i).mpr ⟨o, how, hbit⟩
      simp [this]
    · have harith : w + i + (o - w) = i + o := by omega
      have : y.testBit (w + i) = true := by
        refine (h (w + i)).mpr ⟨o - w, by omega, ?_⟩
        rw [harith]
        exact hbit
      simp [this]

/-- The 32-bit smear reaches a window of width 32. -/
theorem bitWindow_smear32 (x : Nat) : bitWindow x (smear32 x) 32 := by
  have h1 := bitWindow_one x
  have h2 := bitWindow_smear_step h1
  have h4 := bitWindow_smear_step h2
  have h8 := bitWindow_smear_step h4
  have h16 := bitWindow_smear_step h8
  have h32 := bitWindow_smear_step h16
  have hnum : 2 * (2 * (2 * (2 * (2 * 1)))) = 32 := by norm_num
  rw [hnum] at h32
  exact h32

/-- A set bit lies below the bit size. -/
theorem lt_size_of_testBit {x j : Nat} (h : x.testBit j = true) : j < x.size := by
  rw [Nat.lt_size]
  by_contra hc
  push_neg at hc
  rw [Nat.testBit_lt_two_pow (by omega)] at h
  exact Bool.noConfusion h

/-- A positive number has its most significant bit set. -/
theorem testBit_size_pred {x : Nat} (hx : 0 < x) : x.testBit (x.size - 1) = true := by
  have hszpos : 0 < x.size := Nat.size_pos.mpr hx
  have h1 : 2 ^ (x.size - 1) ≤ x := Nat.lt_size.mp (by omega)
  have h2 : x < 2 ^ x.size := Nat.lt_size_self x
  have hpow : 2 ^ (x.size - 1) * 2 = 2 ^ x.size := by
    rw [← Nat.pow_succ]
    congr 1
    omega
  have hppos : 0 < 2 ^ (x.size - 1) := Nat.pos_pow_of_pos _ (by norm_num)
  have hge : 1 ≤ x / 2 ^ (x.size - 1) :=
    (Nat.le_div_iff_mul_le hppos).mpr (by omega)
  have hlt : x / 2 ^ (x.size - 1) < 2 :=
    (Nat.div_lt_iff_lt_mul hppos).mpr (by omega)
  have hdiv : x / 2 ^ (x.size - 1) = 1 := by omega
  rw [Nat.testBit_to_div_mod, hdiv]
  simp

/--
A full-width window saturates: when x fits in w bits, a number seeing x
through a window of width w equals two to the bit size of x, minus one.
-/
theorem bitWindow_saturate {x y w : Nat} (hx : x < 2 ^ w) (h : bitWindow x y w) :
    y = 2 ^ x.size - 1 := by
  apply Nat.eq_of_testBit_eq
  intro i
  rw [Nat.testBit_two_pow_sub_one]
  by_cases hi : i < x.size
  · have hxpos : 0 < x := by
      by_contra hc
      push_neg at hc
      interval_cases x
      simp [Nat.size_zero] at hi
    have hw : x.size ≤ w := Nat.size_le.mpr hx
    have hb : y.testBit i = true := by
      refine (h i).mpr ⟨x.size - 1 - i, by omega, ?_⟩
      have harith : i + (x.size - 1 - i) = x.size - 1 := by omega
      rw [harith]
      exact testBit_size_pred hxpos
    rw [hb]
    simp [hi]
  · have hb : y.testBit i = false := by
      rw [← Bool.not_eq_true]
      intro hbt
      obtain ⟨o, ho, hbit⟩ := (h i).mp hbt
      have := lt_size_of_testBit hbit
      omega
    rw [hb]
    simp [hi]

/-- The 32-bit smear of a number below 2^32 sets every bit below its bit size. -/
theorem smear32_eq {m : Nat} (hm : m < 2 ^ 32) : smear32 m = 2 ^ m.size - 1 :=
  bitWindow_saturate hm (bitWindow_smear32 m)

/-- The 64-bit smear of a number below 2^64 sets every bit below its bit size. -/
theorem smear64_eq {m : Nat} (hm : m < 2 ^ 64) : smear64 m = 2 ^ m.size - 1 := by
  have h32 := bitWindow_smear32 m
  have h64 := bitWindow_smear_step h32
  have hnum : 2 * 32 = 64 := by norm_num
  rw [hnum] at h64
  exact bitWindow_saturate hm h64

/-- Two to the bit size of n minus one is the smallest power of two reaching n. -/
theorem isSmallestPow2Geq_two_pow_size {n : Nat} (h1 : 0 < n) :
    IsSmallestPow2Geq (2 ^ (n - 1).size) n := by
  refine ⟨⟨(n - 1).size, rfl⟩, ?_, ?_⟩
  · have := Nat.lt_size_self (n - 1)
    omega
  · rintro m ⟨k, rfl⟩ hnm
    exact Nat.pow_le_pow_right (by norm_num) (Nat.size_le.mpr (by omega))

/-- Value of NearestPower for sizes up to 2^63: the exact power-of-two round-up. -/
theorem NearestPower_eq {n : Nat} (h1 : 0 < n) (h2 : n ≤ 2 ^ 63) :
    MPMC.NearestPower n = 2 ^ (n - 1).size := by
  have hp63 : (2 : Nat) ^ 63 = 9223372036854775808 := by norm_num
  have hp64 : (2 : Nat) ^ 64 = 18446744073709551616 := by norm_num
  have hlt : n - 1 < 2 ^ 64 := by omega
  have hsize : (n - 1).size ≤ 63 := Nat.size_le.mpr (by omega)
  have hpowle : 2 ^ (n - 1).size ≤ 2 ^ 63 := Nat.pow_le_pow_right (by norm_num) hsize
  have hpowpos : 0 < 2 ^ (n - 1).size := Nat.pos_pow_of_pos _ (by norm_num)
  unfold MPMC.NearestPower MPMC.U64
  rw [smear64_eq hlt]
  have hsum : 2 ^ (n - 1).size - 1 + 1 = 2 ^ (n - 1).size := by omega
  rw [hsum]
  exact Nat.mod_eq_of_lt (by omega)

/-- The stored IndexMask of the first queue class is the capacity minus one. -/
theorem mkQueue_IndexMask_eq {T : Type} (z : T) {n : Nat} (h1 : 0 < n) (h2 : n ≤ 2 ^ 63) :
    (MPMC.mkQueue T z n).IndexMask = MPMC.NearestPower n - 1 := by
  have hp64 : (2 : Nat) ^ 64 = 18446744073709551616 := by norm_num
  have hnp := NearestPower_eq h1 h2
  have hsize : (n - 1).size ≤ 63 := Nat.size_le.mpr (by have := Nat.lt_size_self (n - 1); omega)
  have hle : 2 ^ (n - 1).size ≤ 2 ^ 63 := Nat.pow_le_pow_right (by norm_num) hsize
  have hpos : 0 < 2 ^ (n - 1).size := Nat.pos_pow_of_pos _ (by norm_num)
  show (MPMC.NearestPower n + (MPMC.U64 - 1)) % MPMC.U64 = MPMC.NearestPower n - 1
  unfold MPMC.U64
  rw [hnp]
  have hp63 : (2 : Nat) ^ 63 = 9223372036854775808 := by norm_num
  omega

/-- Value of the lockless capacity for sizes up to 2^31: the exact round-up. -/
theorem lockless_capacityOf_eq {n : Nat} (h1 : 0 < n) (h2 : n ≤ 2 ^ 31) :
    lockless.capacityOf n = 2 ^ (n - 1).size := by
  have hp31 : (2 : Nat) ^ 31 = 2147483648 := by norm_num
  have hp32 : (2 : Nat) ^ 32 = 4294967296 := by norm_num
  have hlt : n - 1 < 2 ^ 32 := by omega
  have hsize : (n - 1).size ≤ 31 := Nat.size_le.mpr (by omega)
  have hpowle : 2 ^ (n - 1).size ≤ 2 ^ 31 := Nat.pow_le_pow_right (by norm_num) hsize
  have hpowpos : 0 < 2 ^ (n - 1).size := Nat.pos_pow_of_pos _ (by norm_num)
  unfold lockless.capacityOf lockless.ceil_to_nearest_power_of_two_minus_one lockless.U32
  rw [if_neg (by omega), smear32_eq hlt]
  have hsum : 2 ^ (n - 1).size - 1 + 1 = 2 ^ (n - 1).size := by omega
  rw [hsum]
  exact Nat.mod_eq_of_lt (by omega)

/-- The stored lockless mask is the capacity minus one, for sizes up to 2^31. -/
theorem lockless_mask_eq {T : Type} (z : T) {n : Nat} (h1 : 0 < n) (h2 : n ≤ 2 ^ 31) :
    (lockless.mk_queue T z n).index_mask = lockless.capacityOf n - 1 := by
  have hp32 : (2 : Nat) ^ 32 = 4294967296 := by norm_num
  have hlt : n - 1 < 2 ^ 32 := by
    have hp31 : (2 : Nat) ^ 31 = 2147483648 := by norm_num
    omega
  show lockless.ceil_to_nearest_power_of_two_minus_one n = lockless.capacityOf n - 1
  rw [lockless_capacityOf_eq h1 h2]
  unfold lockless.ceil_to_nearest_power_of_two_minus_one
  rw [if_neg (by omega), smear32_eq hlt]

/-- One operation of the first queue class keeps the consumer at most the producer. -/
theorem MPMC.mpmc_consumer_le_producer_step {T : Type} [Inhabited T] (s : MPMC.State T)
    (op : MPMC.Op T) (h : s.ConsumerCursor ≤ s.ProducerCursor) :
    (MPMC.step s op).ConsumerCursor ≤ (MPMC.step s op).ProducerCursor := by
  cases op with
  | enq v =>
    simp only [MPMC.step, MPMC.Enqueue]
    split
    · exact h
    · dsimp only
      omega
  | deq =>
    simp only [MPMC.step, MPMC.Dequeue]
    split
    · exact h
    · dsimp only
      omega

/-- Any run of the first queue class keeps the consumer at most the producer. -/
theorem MPMC.mpmc_consumer_le_producer_run {T : Type} [Inhabited T] (s : MPMC.State T)
    (ops : List (MPMC.Op T)) (h : s.ConsumerCursor ≤ s.ProducerCursor) :
    (MPMC.run s ops).ConsumerCursor ≤ (MPMC.run s ops).ProducerCursor := by
  induction ops generalizing s with
  | nil => exact h
  | cons op rest ih =>
    exact ih (MPMC.step s op) (MPMC.mpmc_consumer_le_producer_step s op h)

/-- One lockless operation keeps the consumer at most the producer. -/
theorem lockless.lq_consumer_le_producer_step {T : Type} [Inhabited T] (s : lockless.State T)
    (op : lockless.Op T) (h : s.consumer_cursor ≤ s.producer_cursor) :
    (lockless.step s op).consumer_cursor ≤ (lockless.step s op).producer_cursor := by
  cases op with
  | push v =>
    simp only [lockless.step, lockless.push]
    split
    · exact h
    · dsimp only
      omega
  | pop =>
    simp only [lockless.step, lockless.pop]
    split
    · exact h
    · next hne =>
      dsimp only
      omega

/-- Any lockless run keeps the consumer at most the producer. -/
theorem lockless.lq_consumer_le_producer_run {T : Type} [Inhabited T] (s : lockless.State T)
    (ops : List (lockless.Op T)) (h : s.consumer_cursor ≤ s.producer_cursor) :
    (lockless.run s ops).consumer_cursor ≤ (lockless.run s ops).producer_cursor := by
  induction ops generalizing s with
  | nil => exact h
  | cons op rest ih =>
    exact ih (lockless.step s op) (lockless.lq_consumer_le_producer_step s op h)

/--
Claim C1: with capacity C, C successful Enqueues fill the queue and the
next Enqueue returns Full.  The code evaluates otherwise: its full check
compares the producer cursor plus one with the consumer cursor, which never
holds, so on a capacity-one queue the second Enqueue also returns
TRANSACTION_SUCCESS instead of BUFFER_FULL, overwriting the unread slot.
This theorem evaluates the embedded code at that failing input.
-/
theorem C1_second_enqueue_not_full :
    (MPMC.mkQueue Nat 0 1).RingBuffer.length = 1 ∧
    (MPMC.Enqueue (MPMC.mkQueue Nat 0 1) 10).1 = EMPMCQueueErrorStatus.TRANSACTION_SUCCESS ∧
    (MPMC.Enqueue (MPMC.Enqueue (MPMC.mkQueue Nat 0 1) 10).2 20).1 =
      EMPMCQueueErrorStatus.TRANSACTION_SUCCESS ∧
    (MPMC.Enqueue (MPMC.Enqueue (MPMC.mkQueue Nat 0 1) 10).2 20).1 ≠
      EMPMCQueueErrorStatus.BUFFER_FULL ∧
    (lockless.push (lockless.mk_queue Nat 0 1) (10 : Nat)).1 = true ∧
    (lockless.push (lockless.push (lockless.mk_queue Nat 0 1) 10).2 20).1 = true := by
  decide

/--
Claim C2: in sequential single-producer single-consumer use the dequeued
sequence equals the enqueued sequence.  The code evaluates otherwise:
because the full check never fires, on a capacity-one queue the sequence
Enqueue 1, Enqueue 2 (both reported successful) followed by two Dequeues
yields the outputs 2 and 2, not 1 and 2; the value 1 is lost and the value
2 is delivered twice.  This theorem evaluates the embedded code at that
failing input.
-/
theorem C2_fifo_violated :
    (MPMC.Enqueue (MPMC.mkQueue Nat 0 1) 1).1 = EMPMCQueueErrorStatus.TRANSACTION_SUCCESS ∧
    (MPMC.Enqueue (MPMC.Enqueue (MPMC.mkQueue Nat 0 1) 1).2 2).1 =
      EMPMCQueueErrorStatus.TRANSACTION_SUCCESS ∧
    (MPMC.Dequeue (MPMC.Enqueue (MPMC.Enqueue (MPMC.mkQueue Nat 0 1) 1).2 2).2).2.2 =
      some 2 ∧
    (MPMC.Dequeue
      (MPMC.Dequeue (MPMC.Enqueue (MPMC.Enqueue (MPMC.mkQueue Nat 0 1) 1).2 2).2).2.1).2.2 =
      some 2 := by
  decide

/--
Claim C3: all reachable states satisfy consumer at most producer, size
between 0 and capacity, size equal to capacity exactly when full, and size
zero exactly when empty.  The code evaluates otherwise: on a capacity-one
lockless queue two pushes are reachable and both succeed, after which size
is 2, strictly above the capacity 1, while full still reports false.  This
theorem evaluates the embedded code at that failing input.
-/
theorem C3_size_exceeds_capacity :
    lockless.size
      (lockless.run (lockless.mk_queue Nat 0 1)
        [lockless.Op.push 10, lockless.Op.push 20]) = 2 ∧
    ((lockless.run (lockless.mk_queue Nat 0 1)
        [lockless.Op.push 10, lockless.Op.push 20]).index_mask + 1) % lockless.U32 = 1 ∧
    ¬ (lockless.size
        (lockless.run (lockless.mk_queue Nat 0 1)
          [lockless.Op.push 10, lockless.Op.push 20]) ≤
       ((lockless.run (lockless.mk_queue Nat 0 1)
          [lockless.Op.push 10, lockless.Op.push 20]).index_mask + 1) % lockless.U32) ∧
    lockless.full
      (lockless.run (lockless.mk_queue Nat 0 1)
        [lockless.Op.push 10, lockless.Op.push 20]) = false := by
  decide

/--
Claim C4: in every reachable state the fullness test, producer cursor plus
one equal to consumer cursor, is false, so the Full branch is unreachable
and every Enqueue (and every lockless push) claims a slot and reports
success.  Proved for all states reached by any operation sequence from a
freshly constructed queue, in both embedded variants.
-/
theorem C4_enqueue_never_full {T : Type} [Inhabited T] (z : T) (q : Nat) (v : T) :
    (∀ ops : List (MPMC.Op T),
      (MPMC.run (MPMC.mkQueue T z q) ops).ProducerCursor + 1 ≠
        (MPMC.run (MPMC.mkQueue T z q) ops).ConsumerCursor ∧
      (MPMC.Enqueue (MPMC.run (MPMC.mkQueue T z q) ops) v).1 =
        EMPMCQueueErrorStatus.TRANSACTION_SUCCESS ∧
      (MPMC.Enqueue (MPMC.run (MPMC.mkQueue T z q) ops) v).1 ≠
        EMPMCQueueErrorStatus.BUFFER_FULL) ∧
    (∀ ops : List (lockless.Op T),
      (lockless.push (lockless.run (lockless.mk_queue T z q) ops) v).1 = true) := by
  constructor
  · intro ops
    have hcp := MPMC.mpmc_consumer_le_producer_run (MPMC.mkQueue T z q) ops le_rfl
    refine ⟨by omega, ?_, ?_⟩
    · show (MPMC.Enqueue _ v).1 = _
      simp only [MPMC.Enqueue]
      rw [if_neg (by omega)]
    · simp only [MPMC.Enqueue]
      rw [if_neg (by omega)]
      exact fun hcontra => EMPMCQueueErrorStatus.noConfusion hcontra
  · intro ops
    have hcp := lockless.lq_consumer_le_producer_run (lockless.mk_queue T z q) ops le_rfl
    show (lockless.push _ v).1 = true
    simp only [lockless.push]
    rw [if_neg (by omega)]

/--
Claim C5: on any state with equal cursors, Dequeue returns Empty, writes
nothing to the output parameter, and leaves cursors and buffer unchanged.
Proved for both embedded variants.
-/
theorem C5_dequeue_on_empty {T : Type} [Inhabited T] (s : MPMC.State T)
    (h : s.ConsumerCursor = s.ProducerCursor) :
    MPMC.Dequeue s = (EMPMCQueueErrorStatus.BUFFER_EMPTY, s, none) ∧
    ∀ s2 : lockless.State T, s2.consumer_cursor = s2.producer_cursor →
      lockless.pop s2 = (false, s2, none) := by
  constructor
  · simp only [MPMC.Dequeue]
    rw [if_pos h]
  · intro s2 h2
    simp only [lockless.pop]
    rw [if_pos h2]

/-- Witness for claim C5 on freshly constructed queues of requested size 4. -/
theorem C5_dequeue_on_empty_witness :
    (MPMC.mkQueue Nat 0 4).ConsumerCursor = (MPMC.mkQueue Nat 0 4).ProducerCursor ∧
    MPMC.Dequeue (MPMC.mkQueue Nat 0 4) =
      (EMPMCQueueErrorStatus.BUFFER_EMPTY, MPMC.mkQueue Nat 0 4, none) ∧
    lockless.pop (lockless.mk_queue Nat 0 4) = (false, lockless.mk_queue Nat 0 4, none) :=
  ⟨rfl, (C5_dequeue_on_empty (MPMC.mkQueue Nat 0 4) rfl).1,
    (C5_dequeue_on_empty (MPMC.mkQueue Nat 0 4) rfl).2 (lockless.mk_queue Nat 0 4) rfl⟩

/--
Claim C6 counterexample: the constructed capacity is not the smallest power
of two reaching the requested size for every positive requested size.  At
the requested size 2^31 + 1 (accepted by the static assertions of the
lockless variant) the computed mask is 2^32 - 1 and the 32-bit increment in
the allocation count wraps to zero, so zero slots are allocated.
-/
theorem C6_capacity_overflow_counterexample :
    ¬ IsSmallestPow2Geq (lockless.capacityOf 2147483649) 2147483649 := by
  rintro ⟨-, hle, -⟩
  have h0 : lockless.capacityOf 2147483649 = 0 := by decide
  rw [h0] at hle
  exact absurd hle (by norm_num)

/--
Claim C6 as amended: for positive requested sizes up to 2^63 (first queue
class, 64-bit mask arithmetic) respectively up to 2^31 (lockless variant,
32-bit mask arithmetic) the constructed capacity is the smallest power of
two greater than or equal to the requested size and the stored mask is that
capacity minus one; in particular requested size 1500 yields 2048 and
requested size 1024 yields 1024.
-/
theorem C6_capacity_rounding_amended (n : Nat) (h1 : 0 < n) :
    (n ≤ 2 ^ 63 →
      IsSmallestPow2Geq (MPMC.NearestPower n) n ∧
      (MPMC.mkQueue Nat 0 n).IndexMask = MPMC.NearestPower n - 1 ∧
      (MPMC.mkQueue Nat 0 n).RingBuffer.length = MPMC.NearestPower n) ∧
    (n ≤ 2 ^ 31 →
      IsSmallestPow2Geq (lockless.capacityOf n) n ∧
      (lockless.mk_queue Nat 0 n).index_mask = lockless.capacityOf n - 1 ∧
      (lockless.mk_queue Nat 0 n).ring_buffer.length = lockless.capacityOf n) ∧
    MPMC.NearestPower 1500 = 2048 ∧ MPMC.NearestPower 1024 = 1024 ∧
    lockless.capacityOf 1500 = 2048 ∧ lockless.capacityOf 1024 = 1024 := by
  refine ⟨fun h2 => ⟨?_, mkQueue_IndexMask_eq 0 h1 h2, by simp [MPMC.mkQueue]⟩,
    fun h2 => ⟨?_, lockless_mask_eq 0 h1 h2, by simp [lockless.mk_queue]⟩,
    by decide, by decide, by decide, by decide⟩
  · rw [NearestPower_eq h1 h2]
    exact isSmallestPow2Geq_two_pow_size h1
  · rw [lockless_capacityOf_eq h1 h2]
    exact isSmallestPow2Geq_two_pow_size h1

/-- Witness for the amended claim C6 at the requested size 1500. -/
theorem C6_capacity_rounding_witness :
    0 < (1500 : Nat) ∧ (1500 : Nat) ≤ 2 ^ 63 ∧ (1500 : Nat) ≤ 2 ^ 31 ∧
    IsSmallestPow2Geq (MPMC.NearestPower 1500) 1500 ∧
    IsSmallestPow2Geq (lockless.capacityOf 1500) 1500 :=
  ⟨by norm_num, by norm_num, by norm_num,
    ((C6_capacity_rounding_amended 1500 (by norm_num)).1 (by norm_num)).1,
    ((C6_capacity_rounding_amended 1500 (by norm_num)).2.1 (by norm_num)).1⟩

/--
Claim C7 counterexample: the claim states that a failing compare-and-swap
refreshes the expected variable of the caller to the observed stored value.
The lockless custom_cas receives expected by value, so with stored value 5,
expected 3 and desired 7 it fails and the expected variable of the caller
still holds 3, not the observed 5.
-/
theorem C7_cas_no_refresh_counterexample :
    (lockless.custom_cas 5 3 7).1 = false ∧
    (lockless.custom_cas 5 3 7).2.1 = 5 ∧
    (lockless.custom_cas 5 3 7).2.2 = 3 ∧
    (lockless.custom_cas 5 3 7).2.2 ≠ 5 := by
  decide

/--
Claim C7 as amended: both compare-and-swap operations succeed and store the
new value exactly when the stored value equals the expected value,
returning true, and on failure return false and leave the stored value
unchanged; on failure CompareAndSet of the sequential container refreshes
the expected variable of the caller to the observed stored value, while the
lockless custom_cas leaves the expected variable of the caller unchanged
(it is passed by value).
-/
theorem C7_cas_amended (stored expected newValue : Nat) :
    (stored = expected →
      TSequentialContainer.CompareAndSet stored expected newValue = (true, newValue, expected) ∧
      lockless.custom_cas stored expected newValue = (true, newValue, expected)) ∧
    (stored ≠ expected →
      TSequentialContainer.CompareAndSet stored expected newValue = (false, stored, stored) ∧
      lockless.custom_cas stored expected newValue = (false, stored, expected)) := by
  refine ⟨fun h => ?_, fun h => ?_⟩ <;>
    simp [TSequentialContainer.CompareAndSet, lockless.custom_cas, h]

/-- Witness for the amended claim C7 on a failing and a succeeding instance. -/
theorem C7_cas_witness :
    TSequentialContainer.CompareAndSet 5 3 7 = (false, 5, 5) ∧
    lockless.custom_cas 5 3 7 = (false, 5, 3) ∧
    TSequentialContainer.CompareAndSet 4 4 9 = (true, 9, 4) ∧
    lockless.custom_cas 4 4 9 = (true, 9, 4) :=
  ⟨((C7_cas_amended 5 3 7).2 (by decide)).1, ((C7_cas_amended 5 3 7).2 (by decide)).2,
    ((C7_cas_amended 4 4 9).1 (by decide)).1, ((C7_cas_amended 4 4 9).1 (by decide)).2⟩

/--
Claim C8 counterexample: on a queue whose buffer was never allocated,
Dequeue is claimed to return the distinct uninitialised-buffer status, but
in the degenerate freshly constructed state (equal cursors) the empty check
runs first and Dequeue returns BUFFER_EMPTY instead.
-/
theorem C8_dequeue_on_degenerate_empty :
    (MPMC2.Dequeue ({ IndexMask := 1023, RingBuffer := none, ConsumerCursor := 0, ProducerCursor := 0 } : MPMC2.State Nat)).1 = EMPMCQueueErrorStatus.BUFFER_EMPTY ∧
    (MPMC2.Dequeue ({ IndexMask := 1023, RingBuffer := none, ConsumerCursor := 0, ProducerCursor := 0 } : MPMC2.State Nat)).1 ≠
      EMPMCQueueErrorStatus.BUFFER_NOT_INIT := by
  decide

/--
Claim C8 as amended: on a queue whose buffer was never allocated, Enqueue
always returns the uninitialised-buffer status (in any state with the
consumer cursor at most the producer cursor), Dequeue returns it whenever
the queue is not empty and returns Empty when the cursors are equal, and
that status is distinct from both the Full and the Empty status values.
-/
theorem C8_not_init_amended {T : Type} [Inhabited T] (s : MPMC2.State T) (v : T)
    (hbuf : s.RingBuffer = none) :
    (s.ConsumerCursor ≤ s.ProducerCursor →
      (MPMC2.Enqueue s v).1 = EMPMCQueueErrorStatus.BUFFER_NOT_INIT) ∧
    (s.ConsumerCursor ≠ s.ProducerCursor →
      (MPMC2.Dequeue s).1 = EMPMCQueueErrorStatus.BUFFER_NOT_INIT) ∧
    (s.ConsumerCursor = s.ProducerCursor →
      (MPMC2.Dequeue s).1 = EMPMCQueueErrorStatus.BUFFER_EMPTY) ∧
    EMPMCQueueErrorStatus.BUFFER_NOT_INIT ≠ EMPMCQueueErrorStatus.BUFFER_FULL ∧
    EMPMCQueueErrorStatus.BUFFER_NOT_INIT ≠ EMPMCQueueErrorStatus.BUFFER_EMPTY := by
  refine ⟨fun hle => ?_, fun hne => ?_, fun heq => ?_, by decide, by decide⟩
  · simp only [MPMC2.Enqueue]
    rw [if_neg (by omega), hbuf]
  · simp only [MPMC2.Dequeue]
    rw [if_neg hne, hbuf]
  · simp only [MPMC2.Dequeue]
    rw [if_pos heq]

/-- Witness for the amended claim C8 on a degenerate state with one pending claim. -/
theorem C8_not_init_witness :
    (MPMC2.Enqueue ({ IndexMask := 1023, RingBuffer := none, ConsumerCursor := 0, ProducerCursor := 1 } : MPMC2.State Nat) 5).1 =
      EMPMCQueueErrorStatus.BUFFER_NOT_INIT ∧
    (MPMC2.Dequeue ({ IndexMask := 1023, RingBuffer := none, ConsumerCursor := 0, ProducerCursor := 1 } : MPMC2.State Nat)).1 =
      EMPMCQueueErrorStatus.BUFFER_NOT_INIT :=
  ⟨(C8_not_init_amended ({ IndexMask := 1023, RingBuffer := none, ConsumerCursor := 0, ProducerCursor := 1 } : MPMC2.State Nat) 5 rfl).1 (by decide),
    (C8_not_init_amended ({ IndexMask := 1023, RingBuffer := none, ConsumerCursor := 0, ProducerCursor := 1 } : MPMC2.State Nat) 5 rfl).2.1 (by decide)⟩

/--
Claim C9: every ring-buffer access of Enqueue and Dequeue masks the claimed
cursor value with IndexMask before indexing, and whenever the mask is a
power of two minus one the resulting physical index is below the capacity.
Proved for the first queue class, the CalculateIndex helper of the second
class, and the lockless variant.
-/
theorem C9_masked_access_in_bounds {T : Type} [Inhabited T] (s : MPMC.State T) (v : T)
    (k : Nat) (hmask : s.IndexMask = 2 ^ k - 1) :
    s.ProducerCursor &&& s.IndexMask < 2 ^ k ∧
    s.ConsumerCursor &&& s.IndexMask < 2 ^ k ∧
    ((MPMC.Enqueue s v).1 = EMPMCQueueErrorStatus.TRANSACTION_SUCCESS →
      (MPMC.Enqueue s v).2.RingBuffer =
        s.RingBuffer.set (s.ProducerCursor &&& s.IndexMask) v) ∧
    ((MPMC.Dequeue s).1 = EMPMCQueueErrorStatus.TRANSACTION_SUCCESS →
      (MPMC.Dequeue s).2.2 =
        some (s.RingBuffer.getD (s.ConsumerCursor &&& s.IndexMask) default)) ∧
    (∀ s2 : MPMC2.State T, s2.IndexMask = 2 ^ k - 1 →
      ∀ i : Nat, MPMC2.CalculateIndex s2 i < 2 ^ k) ∧
    (∀ s3 : lockless.State T, s3.index_mask = 2 ^ k - 1 →
      s3.producer_cursor &&& s3.index_mask < 2 ^ k ∧
      s3.consumer_cursor &&& s3.index_mask < 2 ^ k) := by
  have hpos : 0 < 2 ^ k := Nat.pos_pow_of_pos _ (by norm_num)
  refine ⟨?_, ?_, fun hsucc => ?_, fun hsucc => ?_, fun s2 h2 i => ?_, fun s3 h3 => ⟨?_, ?_⟩⟩
  · rw [hmask, Nat.and_pow_two_sub_one_eq_mod]
    exact Nat.mod_lt _ hpos
  · rw [hmask, Nat.and_pow_two_sub_one_eq_mod]
    exact Nat.mod_lt _ hpos
  · by_cases hc : s.ProducerCursor + 1 = s.ConsumerCursor
    · simp only [MPMC.Enqueue] at hsucc
      rw [if_pos hc] at hsucc
      exact absurd hsucc fun h => EMPMCQueueErrorStatus.noConfusion h
    · simp only [MPMC.Enqueue]
      rw [if_neg hc]
  · by_cases hc : s.ConsumerCursor = s.ProducerCursor
    · simp only [MPMC.Dequeue] at hsucc
      rw [if_pos hc] at hsucc
      exact absurd hsucc fun h => EMPMCQueueErrorStatus.noConfusion h
    · simp only [MPMC.Dequeue]
      rw [if_neg hc]
  · show i &&& s2.IndexMask < 2 ^ k
    rw [h2, Nat.and_pow_two_sub_one_eq_mod]
    exact Nat.mod_lt _ hpos
  · rw [h3, Nat.and_pow_two_sub_one_eq_mod]
    exact Nat.mod_lt _ hpos
  · rw [h3, Nat.and_pow_two_sub_one_eq_mod]
    exact Nat.mod_lt _ hpos

/-- Witness for claim C9 on a freshly constructed queue of requested size 4. -/
theorem C9_masked_access_in_bounds_witness :
    (MPMC.mkQueue Nat 0 4).IndexMask = 2 ^ 2 - 1 ∧
    (MPMC.mkQueue Nat 0 4).ProducerCursor &&& (MPMC.mkQueue Nat 0 4).IndexMask < 2 ^ 2 ∧
    (MPMC.mkQueue Nat 0 4).ConsumerCursor &&& (MPMC.mkQueue Nat 0 4).IndexMask < 2 ^ 2 :=
  ⟨by decide,
    (C9_masked_access_in_bounds (MPMC.mkQueue Nat 0 4) 7 2 (by decide)).1,
    (C9_masked_access_in_bounds (MPMC.mkQueue Nat 0 4) 7 2 (by decide)).2.1⟩

/--
Claim C10: a successful Enqueue advances the producer cursor by exactly
one, overwrites exactly the slot at the claimed cursor value masked with
IndexMask, and leaves the consumer cursor, the mask, and every other slot
unchanged.  Proved for the first queue class and for the lockless push.
-/
theorem C10_enqueue_frame {T : Type} [Inhabited T] (s : MPMC.State T) (v : T)
    (hsucc : (MPMC.Enqueue s v).1 = EMPMCQueueErrorStatus.TRANSACTION_SUCCESS) :
    (MPMC.Enqueue s v).2.ProducerCursor = s.ProducerCursor + 1 ∧
    (MPMC.Enqueue s v).2.ConsumerCursor = s.ConsumerCursor ∧
    (MPMC.Enqueue s v).2.IndexMask = s.IndexMask ∧
    (MPMC.Enqueue s v).2.RingBuffer = s.RingBuffer.set (s.ProducerCursor &&& s.IndexMask) v ∧
    (MPMC.Enqueue s v).2.RingBuffer.length = s.RingBuffer.length ∧
    (s.ProducerCursor &&& s.IndexMask < s.RingBuffer.length →
      (MPMC.Enqueue s v).2.RingBuffer.getD (s.ProducerCursor &&& s.IndexMask) default = v) ∧
    (∀ j, j ≠ s.ProducerCursor &&& s.IndexMask →
      (MPMC.Enqueue s v).2.RingBuffer.getD j default = s.RingBuffer.getD j default) ∧
    (∀ s4 : lockless.State T, ∀ w : T, (lockless.push s4 w).1 = true →
      (lockless.push s4 w).2.producer_cursor = s4.producer_cursor + 1 ∧
      (lockless.push s4 w).2.consumer_cursor = s4.consumer_cursor ∧
      (lockless.push s4 w).2.index_mask = s4.index_mask ∧
      (lockless.push s4 w).2.ring_buffer =
        s4.ring_buffer.set (s4.producer_cursor &&& s4.index_mask) w) := by
  by_cases hc : s.ProducerCursor + 1 = s.ConsumerCursor
  · simp only [MPMC.Enqueue] at hsucc
    rw [if_pos hc] at hsucc
    exact absurd hsucc fun h => EMPMCQueueErrorStatus.noConfusion h
  · have hred : MPMC.Enqueue s v =
        (EMPMCQueueErrorStatus.TRANSACTION_SUCCESS,
          { s with
            ProducerCursor := s.ProducerCursor + 1
            RingBuffer := s.RingBuffer.set (s.ProducerCursor &&& s.IndexMask) v }) := by
      simp only [MPMC.Enqueue]
      rw [if_neg hc]
    rw [hred]
    refine ⟨rfl, rfl, rfl, rfl, List.length_set s.RingBuffer _ v, fun hlen => ?_, fun j hj => ?_,
      fun s4 w hpush => ?_⟩
    · show (s.RingBuffer.set (s.ProducerCursor &&& s.IndexMask) v).getD _ default = v
      rw [List.getD_eq_getElem?_getD, List.getElem?_set_self hlen]
      rfl
    · show (s.RingBuffer.set (s.ProducerCursor &&& s.IndexMask) v).getD j default =
        s.RingBuffer.getD j default
      rw [List.getD_eq_getElem?_getD, List.getElem?_set_ne (Ne.symm hj),
        ← List.getD_eq_getElem?_getD]
    · by_cases hc4 : s4.producer_cursor + 1 = s4.consumer_cursor
      · simp only [lockless.push] at hpush
        rw [if_pos hc4] at hpush
        exact absurd hpush fun h => Bool.noConfusion h
      · have hred4 : lockless.push s4 w =
            (true,
              { s4 with
                producer_cursor := s4.producer_cursor + 1
                ring_buffer :=
                  s4.ring_buffer.set (s4.producer_cursor &&& s4.index_mask) w }) := by
          simp only [lockless.push]
          rw [if_neg hc4]
        rw [hred4]
        exact ⟨rfl, rfl, rfl, rfl⟩

/-- Witness for claim C10 on a freshly constructed queue of requested size 4. -/
theorem C10_enqueue_frame_witness :
    (MPMC.Enqueue (MPMC.mkQueue Nat 0 4) 7).2.ProducerCursor =
      (MPMC.mkQueue Nat 0 4).ProducerCursor + 1 ∧
    (MPMC.Enqueue (MPMC.mkQueue Nat 0 4) 7).2.RingBuffer.getD
      ((MPMC.mkQueue Nat 0 4).ProducerCursor &&& (MPMC.mkQueue Nat 0 4).IndexMask)
      default = 7 :=
  ⟨(C10_enqueue_frame (MPMC.mkQueue Nat 0 4) 7 (by decide)).1,
    (C10_enqueue_frame (MPMC.mkQueue Nat 0 4) 7 (by decide)).2.2.2.2.2.1 (by decide)⟩
